import Mathlib

/-!
Verification of the SEO Friendly Description Generator plugin (`src/main.ts`).

Strings of the TypeScript source are embedded as `List Char`.  The two
regular expressions used by the source are small and fixed, so their
semantics is embedded directly:

* the per-field pattern built in `updateFrontmatterField`, which matches
  from the first occurrence of `field:` to the end of that line, consuming
  a trailing newline when one is present (and capturing it as group 1);
* the anchored frontmatter pattern used by `updateFrontmatter`, which
  requires the document to begin with a line `---` and ends the block at
  the first later occurrence of a newline followed by three dashes.

`String.prototype.replace` performs `$`-substitution inside the
replacement string, which `getSubstitution` models for a one-group
pattern (ECMAScript GetSubstitution).
-/

set_option autoImplicit false

abbrev Str : Type := List Char

/-- Backquote character, written numerically. -/
def backquoteChar : Char := Char.ofNat 96

/-- Apostrophe character, written numerically. -/
def aposChar : Char := Char.ofNat 39

/-- Models ECMAScript `String.prototype.includes`: does `pat` occur as a
contiguous substring of the second argument? -/
def strContains (pat : Str) : Str → Bool
  | [] => pat.isEmpty
  | c :: rest => pat.isPrefixOf (c :: rest) || strContains pat rest

/-- Index of the first occurrence of `pat`, if any.  This is where a
regular expression whose literal head is `pat` (followed by patterns that
always succeed, as in the source's field pattern) finds its match. -/
def findSub (pat : Str) : Str → Option Nat
  | [] => if pat.isEmpty then some 0 else none
  | c :: rest =>
    if pat.isPrefixOf (c :: rest) then some 0
    else (findSub pat rest).map (· + 1)

/-- ECMAScript GetSubstitution for a one-capture-group regular
expression: expands `$$`, `$&`, dollar-backquote, dollar-apostrophe and
`$1` inside the replacement template; every other character is copied. -/
def getSubstitution (matched before after g1 : Str) : Str → Str
  | [] => []
  | c :: t =>
    if c = '$' then
      match t with
      | [] => ['$']
      | c2 :: t2 =>
        if c2 = '$' then '$' :: getSubstitution matched before after g1 t2
        else if c2 = '&' then matched ++ getSubstitution matched before after g1 t2
        else if c2 = backquoteChar then before ++ getSubstitution matched before after g1 t2
        else if c2 = aposChar then after ++ getSubstitution matched before after g1 t2
        else if c2 = '1' then g1 ++ getSubstitution matched before after g1 t2
        else '$' :: c2 :: getSubstitution matched before after g1 t2
    else c :: getSubstitution matched before after g1 t

/-- True when the string contains no dollar character, so that
`getSubstitution` copies it verbatim. -/
def noDollar (s : Str) : Bool := s.all (fun c => c != '$')

/-- The field name `description`, as used by `updateFrontmatter`. -/
def descStr : Str := ("description").data

/-- The field name `keywords`, as used by `updateFrontmatter`. -/
def kwStr : Str := ("keywords").data

/-- Models `frontmatter.replace(fieldRegex, ...)` from
`updateFrontmatterField`: the pattern `field:.*(\n|$)` matches from the
first occurrence of `field:` to the end of that line; the trailing
newline, when present, is part of the match (group 1) and is therefore
removed; the replacement template `field: "value"` is subject to
`$`-substitution.  With no match the string is returned unchanged. -/
def replaceFieldRegex (frontmatter field value : Str) : Str :=
  match findSub (field ++ [':']) frontmatter with
  | none => frontmatter
  | some i =>
    let before := frontmatter.take i
    let rest := frontmatter.drop i
    let line := rest.takeWhile (fun c => c != '\n')
    let repl := field ++ ':' :: ' ' :: '"' :: (value ++ ['"'])
    if line.length = rest.length then
      before ++ getSubstitution rest before [] [] repl
    else
      before ++ getSubstitution (line ++ ['\n']) before (rest.drop (line.length + 1)) (['\n']) repl
        ++ rest.drop (line.length + 1)

/-- Embeds `updateFrontmatterField` from `src/main.ts`: when the block
contains the substring `field:` the field pattern is replaced, otherwise
a line `field: "value"` is appended after a newline. -/
def updateFrontmatterField (frontmatter field value : Str) : Str :=
  if strContains (field ++ [':']) frontmatter then
    replaceFieldRegex frontmatter field value
  else
    frontmatter ++ '\n' :: (field ++ ':' :: ' ' :: '"' :: (value ++ ['"']))

/-- Embeds the match of the anchored frontmatter pattern
(caret, three dashes, newline, lazy one-group any-character run, newline,
three dashes) from `updateFrontmatter`: the document must begin with
`---` and a newline;
the lazy group captures up to the first later `\n---`.  Returns the
captured block text and the remainder after the closing delimiter. -/
def frontmatterSplit (content : Str) : Option (Str × Str) :=
  if ("---\n").data.isPrefixOf content then
    match findSub (("\n---").data) (content.drop 4) with
    | some j => some ((content.drop 4).take j, (content.drop 4).drop (j + 4))
    | none => none
  else none

/-- The document synthesized by `updateFrontmatter` when no frontmatter
block is found. -/
def synthesizeFrontmatter (content description keywords : Str) : Str :=
  ("---\ndescription: \"").data ++ description ++ ("\"\nkeywords: \"").data
    ++ keywords ++ ("\"\n---\n\n").data ++ content

/-- Splits a document into its lines at newline characters. -/
def linesOf : Str → List Str
  | [] => [[]]
  | c :: t =>
    if c = '\n' then [] :: linesOf t
    else
      match linesOf t with
      | l :: ls => (c :: l) :: ls
      | [] => [[c]]

/-- Transcribes the spec wording for block recognition: the document
starts with a line consisting solely of three dashes, and some later
line consists solely of three dashes. -/
def specExactBlockShape (content : Str) : Bool :=
  match linesOf content with
  | first :: rest => first == ("---").data && rest.any (fun l => l == ("---").data)
  | [] => false

/-- Embeds `updateFrontmatter` from `src/main.ts`: with a block present
the two fields are patched inside the captured text and the rewritten
block replaces the matched region (the frontmatter regex has one capture
group, hence `getSubstitution` with `g1` the original block); otherwise
a fresh block is synthesized in front of the document. -/
def updateFrontmatter (content description keywords : Str) : Str :=
  match frontmatterSplit content with
  | some (inner, rest) =>
    let fm1 := updateFrontmatterField inner descStr description
    let fm2 := updateFrontmatterField fm1 kwStr keywords
    getSubstitution (("---\n").data ++ inner ++ ("\n---").data) [] rest inner
      (("---\n").data ++ fm2 ++ ("\n---").data) ++ rest
  | none => synthesizeFrontmatter content description keywords

/-- Output language of the generated SEO content (`'zh' | 'en'`). -/
inductive Lang where
  | zh
  | en
deriving DecidableEq

/-- Which of the two generation calls is being made. -/
inductive ReqType where
  | description
  | keywords
deriving DecidableEq

/-- Embeds the `PluginSettings` record of `src/main.ts`.  The numeric
fields are only carried through to the request payload, so `maxTokens`
is an integer (the settings form stores a `parseInt` result) and
`temperature` is a rational standing for the slider value. -/
structure PluginSettings where
  apiKey : Str
  apiUrl : Str
  model : Str
  maxTokens : Int
  temperature : Rat
  language : Lang
  customDescriptionPrompt : Str
  customKeywordsPrompt : Str
  useCustomPrompts : Bool
deriving DecidableEq

/-- Embeds `DEFAULT_SETTINGS` from `src/main.ts`. -/
def DEFAULT_SETTINGS : PluginSettings :=
  ⟨[], ("https://api.openai.com/v1/chat/completions").data, ("gpt-3.5-turbo").data,
    150, (0.8 : Rat), Lang.zh, [], [], false⟩

/-- Embeds the `DEFAULT_PROMPTS` table: for a request type and language,
the pair of built-in system instruction and user-turn preamble. -/
def DEFAULT_PROMPTS (ty : ReqType) (lang : Lang) : Str × Str :=
  match ty, lang with
  | ReqType.description, Lang.zh =>
    (("你是一个SEO专家，请生成一段简洁、吸引人且对搜索引擎友好的中文描述，长度在100-150字之间。").data,
     ("请为以下内容生成描述：\n\n").data)
  | ReqType.description, Lang.en =>
    (("You are an SEO expert. Generate a concise, engaging, and SEO-friendly description in English, between 50-80 words.").data,
     ("Generate a description for the following content:\n\n").data)
  | ReqType.keywords, Lang.zh =>
    (("你是一个SEO专家，请生成5-8个相关的中文关键词，用逗号分隔。关键词应该准确反映内容主题，并具有搜索价值。").data,
     ("请为以下内容生成关键词：\n\n").data)
  | ReqType.keywords, Lang.en =>
    (("You are an SEO expert. Generate 5-8 relevant English keywords, separated by commas. Keywords should accurately reflect the content and have search value.").data,
     ("Generate keywords for the following content:\n\n").data)

/-- One element of the `messages` array of the request payload. -/
structure ChatMessage where
  role : Str
  content : Str
deriving DecidableEq

/-- The HTTP POST issued by `callAIAPI`: target URL, JSON payload fields
and request headers. -/
structure ApiRequest where
  url : Str
  model : Str
  messages : List ChatMessage
  max_tokens : Int
  temperature : Rat
  headers : List (Str × Str)
deriving DecidableEq

/-- Embeds the request construction inside `callAIAPI`: system
instruction selected from the custom prompts (per request type) when
`useCustomPrompts` is set, otherwise from `DEFAULT_PROMPTS`; user turn is
the built-in preamble concatenated with the document text; the payload
carries model, max_tokens and temperature; the credential travels in a
bearer `Authorization` header. -/
def buildRequest (s : PluginSettings) (content : Str) (ty : ReqType) : ApiRequest :=
  ⟨s.apiUrl,
   s.model,
   [⟨("system").data,
     if s.useCustomPrompts then
       (match ty with
        | ReqType.description => s.customDescriptionPrompt
        | ReqType.keywords => s.customKeywordsPrompt)
     else (DEFAULT_PROMPTS ty s.language).1⟩,
    ⟨("user").data, (DEFAULT_PROMPTS ty s.language).2 ++ content⟩],
   s.maxTokens,
   s.temperature,
   [(("Authorization").data, ("Bearer ").data ++ s.apiKey),
    (("Content-Type").data, ("application/json").data)]⟩

/-- JSON values, used for the response body `response.data`. -/
inductive Json where
  | jnull
  | jbool (b : Bool)
  | jnum (q : Rat)
  | jstr (s : Str)
  | jarr (items : List Json)
  | jobj (fields : List (Str × Json))

/-- First binding of a key in a JSON object field list. -/
def lookupField : List (Str × Json) → Str → Option Json
  | [], _ => none
  | (k, v) :: rest, key => if k = key then some v else lookupField rest key

/-- Property access `j.key`; anything but an object with the key present
is `undefined` (and so makes the next access of the chain throw). -/
def jsonGet (j : Json) (key : Str) : Option Json :=
  match j with
  | Json.jobj fields => lookupField fields key
  | _ => none

/-- Element access `j[0]` on the `choices` array. -/
def jsonIndex0 : Json → Option Json
  | Json.jarr (x :: _) => some x
  | _ => none

/-- ECMAScript whitespace as removed by `String.prototype.trim`
(space, tab, line and page breaks, no-break space, BOM). -/
def isJsSpace (c : Char) : Bool :=
  c == ' ' || c == '\t' || c == '\n' || c == '\r'
    || c == Char.ofNat 11 || c == Char.ofNat 12
    || c == Char.ofNat 160 || c == Char.ofNat 65279

/-- Models `s.trim()`. -/
def jsTrim (s : Str) : Str :=
  ((s.dropWhile isJsSpace).reverse.dropWhile isJsSpace).reverse

/-- Models `response.data.choices[0].message.content.trim()`: any break
in the chain (missing key, non-array `choices`, empty array, non-string
`content`) is a thrown `TypeError` in the source, modelled as `none`. -/
def extractContentOpt (data : Json) : Option Str :=
  match jsonGet data (("choices").data) with
  | none => none
  | some choices =>
    match jsonIndex0 choices with
    | none => none
    | some first =>
      match jsonGet first (("message").data) with
      | none => none
      | some msg =>
        match jsonGet msg (("content").data) with
        | some (Json.jstr str) => some (jsTrim str)
        | _ => none

/-- Outcome of the `axios.post` call: a 2xx response carrying a parsed
JSON body, or a rejection (network/transport error or non-2xx status,
both of which make axios throw). -/
inductive TransportOutcome where
  | success (data : Json)
  | failure (message : Str)

/-- The body of `callAIAPI`'s `try` block: issue the request and extract
the trimmed message content; `none` when the transport throws or the
response body does not have the expected shape. -/
def callAIAPITry (tr : ApiRequest → TransportOutcome) (s : PluginSettings)
    (content : Str) (ty : ReqType) : Option Str :=
  match tr (buildRequest s content ty) with
  | TransportOutcome.failure _ => none
  | TransportOutcome.success data => extractContentOpt data

/-- Embeds `callAIAPI`: the `catch` clause logs, shows a notice and
returns the empty string, so the caller always receives a plain string. -/
def callAIAPI (tr : ApiRequest → TransportOutcome) (s : PluginSettings)
    (content : Str) (ty : ReqType) : Str :=
  match callAIAPITry tr s content ty with
  | some result => result
  | none => []

/-- Embeds `generateDescription`: reads the editor text, performs the two
generation calls, and only when both results are truthy (non-empty)
rewrites the document.  Returns the final editor text together with the
flag recording whether `editor.setValue` was invoked. -/
def generateDescription (tr : ApiRequest → TransportOutcome) (s : PluginSettings)
    (editorText : Str) : Str × Bool :=
  let content := editorText
  let description := callAIAPI tr s content ReqType.description
  let keywords := callAIAPI tr s content ReqType.keywords
  if description ≠ ([] : Str) ∧ keywords ≠ ([] : Str) then
    (updateFrontmatter content description keywords, true)
  else
    (editorText, false)

theorem take_length_append (a b : Str) : (a ++ b).take a.length = a := by
  induction a with
  | nil => simp
  | cons c t ih => simp [ih]

theorem drop_length_append (a b : Str) : (a ++ b).drop a.length = b := by
  induction a with
  | nil => simp
  | cons c t ih => simp [ih]

theorem takeWhile_append_all (p : Char → Bool) (a b : Str) (h : a.all p = true) :
    (a ++ b).takeWhile p = a ++ b.takeWhile p := by
  induction a with
  | nil => simp
  | cons c t ih =>
    simp only [List.all_cons, Bool.and_eq_true] at h
    simp [List.takeWhile_cons, h.1, ih h.2]

theorem takeWhile_all_eq (p : Char → Bool) (l : Str) (h : l.all p = true) :
    l.takeWhile p = l := by
  induction l with
  | nil => rfl
  | cons c t ih =>
    simp only [List.all_cons, Bool.and_eq_true] at h
    simp [List.takeWhile_cons, h.1, ih h.2]

theorem getSubstitution_noDollar (m b a g t : Str) (h : noDollar t = true) :
    getSubstitution m b a g t = t := by
  induction t with
  | nil => rfl
  | cons c t ih =>
    simp only [noDollar, List.all_cons, Bool.and_eq_true] at h
    have hc : ¬ c = '$' := by simpa using h.1
    rw [getSubstitution.eq_def]
    dsimp only
    rw [if_neg hc, ih (show noDollar t = true from h.2)]

theorem noDollar_append (x y : Str) : noDollar (x ++ y) = (noDollar x && noDollar y) := by
  simp [noDollar, List.all_append]

theorem strContains_of_findSub (pat s : Str) (i : Nat) (h : findSub pat s = some i) :
    strContains pat s = true := by
  induction s generalizing i with
  | nil =>
    simp only [findSub] at h
    by_cases he : pat.isEmpty
    · simp [strContains, he]
    · simp [he] at h
  | cons c t ih =>
    simp only [findSub] at h
    by_cases hp : pat.isPrefixOf (c :: t)
    · simp [strContains, hp]
    · rw [if_neg hp] at h
      simp only [strContains, hp, Bool.false_or]
      cases hfd : findSub pat t with
      | none => rw [hfd] at h; simp at h
      | some j => exact ih j hfd

theorem strContains_eq_findSub_isSome (pat s : Str) :
    strContains pat s = (findSub pat s).isSome := by
  induction s with
  | nil =>
    simp only [strContains, findSub]
    by_cases he : pat.isEmpty <;> simp [he]
  | cons c t ih =>
    simp only [strContains, findSub]
    by_cases hp : pat.isPrefixOf (c :: t)
    · simp [hp]
    · simp [hp, ih]

theorem replaceFieldRegex_last (pre field tail value : Str)
    (hall : (field ++ ':' :: tail).all (fun c => c != '\n') = true)
    (hrepl : noDollar (field ++ ':' :: ' ' :: '"' :: (value ++ ['"'])) = true)
    (hfind : findSub (field ++ [':']) (pre ++ (field ++ ':' :: tail)) = some pre.length) :
    replaceFieldRegex (pre ++ (field ++ ':' :: tail)) field value
      = pre ++ (field ++ ':' :: ' ' :: '"' :: (value ++ ['"'])) := by
  unfold replaceFieldRegex
  rw [hfind]
  dsimp only
  rw [take_length_append, drop_length_append, takeWhile_all_eq _ _ hall]
  rw [if_pos rfl]
  rw [getSubstitution_noDollar _ _ _ _ _ hrepl]

theorem replaceFieldRegex_mid (pre field tail suffix value : Str)
    (hall : (field ++ ':' :: tail).all (fun c => c != '\n') = true)
    (hrepl : noDollar (field ++ ':' :: ' ' :: '"' :: (value ++ ['"'])) = true)
    (hfind : findSub (field ++ [':'])
        (pre ++ (field ++ ':' :: (tail ++ '\n' :: suffix))) = some pre.length) :
    replaceFieldRegex (pre ++ (field ++ ':' :: (tail ++ '\n' :: suffix))) field value
      = pre ++ (field ++ ':' :: ' ' :: '"' :: (value ++ '"' :: suffix)) := by
  unfold replaceFieldRegex
  rw [hfind]
  dsimp only
  rw [take_length_append, drop_length_append]
  have hres : field ++ ':' :: (tail ++ '\n' :: suffix)
      = (field ++ ':' :: tail) ++ '\n' :: suffix := by simp
  rw [hres, takeWhile_append_all _ _ _ hall]
  have hnl : (('\n' :: suffix).takeWhile (fun c => c != '\n')) = [] := by
    simp [List.takeWhile_cons]
  rw [hnl, List.append_nil]
  have hlen : ¬ ((field ++ ':' :: tail).length
      = ((field ++ ':' :: tail) ++ '\n' :: suffix).length) := by
    simp
  rw [if_neg hlen]
  have hdrop2 : ((field ++ ':' :: tail) ++ '\n' :: suffix).drop
      ((field ++ ':' :: tail).length + 1) = suffix := by
    have h1 : (field ++ ':' :: tail) ++ '\n' :: suffix
        = ((field ++ ':' :: tail) ++ ['\n']) ++ suffix := by simp
    have h2 : (field ++ ':' :: tail).length + 1
        = ((field ++ ':' :: tail) ++ ['\n']).length := by
      simp only [List.length_append, List.length_cons, List.length_nil]
    rw [h1, h2, drop_length_append]
  rw [hdrop2, getSubstitution_noDollar _ _ _ _ _ hrepl]
  simp

theorem updateFrontmatterField_last (pre field tail value : Str)
    (hall : (field ++ ':' :: tail).all (fun c => c != '\n') = true)
    (hrepl : noDollar (field ++ ':' :: ' ' :: '"' :: (value ++ ['"'])) = true)
    (hfind : findSub (field ++ [':']) (pre ++ (field ++ ':' :: tail)) = some pre.length) :
    updateFrontmatterField (pre ++ (field ++ ':' :: tail)) field value
      = pre ++ (field ++ ':' :: ' ' :: '"' :: (value ++ ['"'])) := by
  unfold updateFrontmatterField
  rw [if_pos (strContains_of_findSub _ _ _ hfind)]
  exact replaceFieldRegex_last pre field tail value hall hrepl hfind

theorem updateFrontmatterField_mid (pre field tail suffix value : Str)
    (hall : (field ++ ':' :: tail).all (fun c => c != '\n') = true)
    (hrepl : noDollar (field ++ ':' :: ' ' :: '"' :: (value ++ ['"'])) = true)
    (hfind : findSub (field ++ [':'])
        (pre ++ (field ++ ':' :: (tail ++ '\n' :: suffix))) = some pre.length) :
    updateFrontmatterField (pre ++ (field ++ ':' :: (tail ++ '\n' :: suffix))) field value
      = pre ++ (field ++ ':' :: ' ' :: '"' :: (value ++ '"' :: suffix)) := by
  unfold updateFrontmatterField
  rw [if_pos (strContains_of_findSub _ _ _ hfind)]
  exact replaceFieldRegex_mid pre field tail suffix value hall hrepl hfind

theorem updateFrontmatter_block (content inner rest d k : Str)
    (hsplit : frontmatterSplit content = some (inner, rest))
    (hnd : noDollar (updateFrontmatterField (updateFrontmatterField inner descStr d) kwStr k)
      = true) :
    updateFrontmatter content d k
      = ("---\n").data ++ updateFrontmatterField (updateFrontmatterField inner descStr d) kwStr k
        ++ ("\n---").data ++ rest := by
  unfold updateFrontmatter
  rw [hsplit]
  dsimp only
  have hnd2 : noDollar (("---\n").data
      ++ updateFrontmatterField (updateFrontmatterField inner descStr d) kwStr k
      ++ ("\n---").data) = true := by
    simp only [noDollar_append, hnd, Bool.and_true, Bool.true_and]
    decide
  rw [getSubstitution_noDollar _ _ _ _ _ hnd2]

theorem all_of_append_of_all (p : Char → Bool) (a b : Str)
    (ha : a.all p = true) (hb : b.all p = true) : (a ++ b).all p = true := by
  simp [List.all_append, ha, hb]

theorem all_cons_of (p : Char → Bool) (c : Char) (l : Str)
    (hc : p c = true) (hl : l.all p = true) : (c :: l).all p = true := by
  simp [List.all_cons, hc, hl]

theorem noDollar_repl (field value : Str)
    (hf : noDollar field = true) (hv : noDollar value = true) :
    noDollar (field ++ ':' :: ' ' :: '"' :: (value ++ ['"'])) = true :=
  all_of_append_of_all _ _ _ hf
    (all_cons_of _ _ _ (by decide)
      (all_cons_of _ _ _ (by decide)
        (all_cons_of _ _ _ (by decide)
          (all_of_append_of_all _ _ _ hv (by decide)))))

/-- Claim C1, counterexample: in a block where the `description:` line is
followed by a further line, patching the description does not leave the
rest of the block unchanged — the replacement pattern consumes the
trailing newline and the next line is joined onto the rewritten one, so
the result differs from the line-for-line replacement the claim
predicts. -/
theorem claim_c1_counterexample :
    updateFrontmatterField ("description: \"old\"\nkeywords: \"k\"").data descStr ("new").data
      = ("description: \"new\"keywords: \"k\"").data
    ∧ updateFrontmatterField ("description: \"old\"\nkeywords: \"k\"").data descStr ("new").data
      ≠ ("description: \"new\"\nkeywords: \"k\"").data := by
  refine ⟨by decide, by decide⟩

/-- Claim C1 (amended): when the first occurrence of `description:` in
the block starts the existing description line and the new value carries
no dollar character, patching replaces that line's tail with the quoted
new value; if further lines follow, the line's trailing newline is
consumed and the following line is joined directly onto the rewritten
line, while everything before the line and everything after the consumed
newline is byte-preserved; if the description line is the last line of
the block, exactly that line is replaced and nothing else changes; and
the rewritten block is reinserted with all text after the block left
untouched. -/
theorem claim_c1_description_patch :
    (∀ pre tail suffix value : Str,
      noDollar value = true →
      (descStr ++ ':' :: tail).all (fun c => c != '\n') = true →
      findSub (descStr ++ [':'])
          (pre ++ (descStr ++ ':' :: (tail ++ '\n' :: suffix))) = some pre.length →
      updateFrontmatterField (pre ++ (descStr ++ ':' :: (tail ++ '\n' :: suffix))) descStr value
        = pre ++ (descStr ++ ':' :: ' ' :: '"' :: (value ++ '"' :: suffix)))
    ∧ (∀ pre tail value : Str,
      noDollar value = true →
      (descStr ++ ':' :: tail).all (fun c => c != '\n') = true →
      findSub (descStr ++ [':']) (pre ++ (descStr ++ ':' :: tail)) = some pre.length →
      updateFrontmatterField (pre ++ (descStr ++ ':' :: tail)) descStr value
        = pre ++ (descStr ++ ':' :: ' ' :: '"' :: (value ++ ['"'])))
    ∧ (∀ content inner rest d k : Str,
      frontmatterSplit content = some (inner, rest) →
      noDollar (updateFrontmatterField (updateFrontmatterField inner descStr d) kwStr k)
        = true →
      updateFrontmatter content d k
        = ("---\n").data
          ++ updateFrontmatterField (updateFrontmatterField inner descStr d) kwStr k
          ++ ("\n---").data ++ rest) := by
  refine ⟨?_, ?_, ?_⟩
  · intro pre tail suffix value hv hall hfind
    exact updateFrontmatterField_mid pre descStr tail suffix value hall
      (noDollar_repl descStr value (by decide) hv) hfind
  · intro pre tail value hv hall hfind
    exact updateFrontmatterField_last pre descStr tail value hall
      (noDollar_repl descStr value (by decide) hv) hfind
  · intro content inner rest d k hsplit hnd
    exact updateFrontmatter_block content inner rest d k hsplit hnd

/-- Claim C1, witness: concrete instances of the three parts of the
amended claim. -/
theorem claim_c1_witness :
    updateFrontmatterField ("author: x\ndescription: \"old\"\nlast: y").data descStr ("new").data
      = ("author: x\ndescription: \"new\"last: y").data
    ∧ updateFrontmatterField ("author: x\ndescription: \"old\"").data descStr ("new").data
      = ("author: x\ndescription: \"new\"").data
    ∧ updateFrontmatter ("---\nauthor: m\n---\nBody").data ("D").data ("K").data
      = ("---\nauthor: m\ndescription: \"D\"\nkeywords: \"K\"\n---\nBody").data := by
  refine ⟨?_, ?_, ?_⟩
  · exact claim_c1_description_patch.1 ("author: x\n").data (" \"old\"").data
      ("last: y").data ("new").data (by decide) (by decide) (by decide)
  · exact claim_c1_description_patch.2.1 ("author: x\n").data (" \"old\"").data
      ("new").data (by decide) (by decide) (by decide)
  · exact claim_c1_description_patch.2.2 ("---\nauthor: m\n---\nBody").data
      ("author: m").data ("\nBody").data ("D").data ("K").data (by decide) (by decide)

/-- Claim C5, counterexample: patching a description already set to
`old` with the same value `old` is not byte-identical when another line
follows — the trailing newline of the description line is lost, which is
not a quote normalization (the stored value was already quoted). -/
theorem claim_c5_counterexample :
    updateFrontmatterField ("description: \"old\"\ntitle: t").data descStr ("old").data
      = ("description: \"old\"title: t").data
    ∧ ("description: \"old\"title: t").data ≠ ("description: \"old\"\ntitle: t").data := by
  refine ⟨by decide, by decide⟩

/-- Claim C5 (amended): the round trip holds only when the description
line is the last line of the block (and its `description:` is the first
occurrence in the block, with a newline- and dollar-free value V): with
the value already stored quoted the result is byte-identical; with the
value stored unquoted the result only normalizes the quoting around V.
When further lines follow, the trailing newline of the line is lost, as
the counterexample shows. -/
theorem claim_c5_roundtrip :
    (∀ pre v : Str,
      noDollar v = true →
      v.all (fun c => c != '\n') = true →
      findSub (descStr ++ [':'])
          (pre ++ (descStr ++ ':' :: ' ' :: '"' :: (v ++ ['"']))) = some pre.length →
      updateFrontmatterField (pre ++ (descStr ++ ':' :: ' ' :: '"' :: (v ++ ['"']))) descStr v
        = pre ++ (descStr ++ ':' :: ' ' :: '"' :: (v ++ ['"'])))
    ∧ (∀ pre v : Str,
      noDollar v = true →
      v.all (fun c => c != '\n') = true →
      findSub (descStr ++ [':']) (pre ++ (descStr ++ ':' :: ' ' :: v)) = some pre.length →
      updateFrontmatterField (pre ++ (descStr ++ ':' :: ' ' :: v)) descStr v
        = pre ++ (descStr ++ ':' :: ' ' :: '"' :: (v ++ ['"']))) := by
  constructor
  · intro pre v hv hnl hfind
    exact updateFrontmatterField_last pre descStr (' ' :: '"' :: (v ++ ['"'])) v
      (all_of_append_of_all _ _ _ (by decide)
        (all_cons_of _ _ _ (by decide)
          (all_cons_of _ _ _ (by decide)
            (all_cons_of _ _ _ (by decide)
              (all_of_append_of_all _ _ _ hnl (by decide))))))
      (noDollar_repl descStr v (by decide) hv) hfind
  · intro pre v hv hnl hfind
    exact updateFrontmatterField_last pre descStr (' ' :: v) v
      (all_of_append_of_all _ _ _ (by decide)
        (all_cons_of _ _ _ (by decide)
          (all_cons_of _ _ _ (by decide) hnl)))
      (noDollar_repl descStr v (by decide) hv) hfind

/-- Claim C5, witness: a block whose only line is the quoted description
round-trips byte-identically, and an unquoted one is quote-normalized. -/
theorem claim_c5_witness :
    updateFrontmatterField ("description: \"old\"").data descStr ("old").data
      = ("description: \"old\"").data
    ∧ updateFrontmatterField ("description: old").data descStr ("old").data
      = ("description: \"old\"").data := by
  constructor
  · exact claim_c5_roundtrip.1 [] ("old").data (by decide) (by decide) (by decide)
  · exact claim_c5_roundtrip.2 [] ("old").data (by decide) (by decide) (by decide)

/-- Claim C10: when the line of the field being replaced is followed by
at least one further line, the match of the field pattern includes the
line's trailing newline and the replacement text does not re-emit it, so
the rewritten field line is joined directly onto the start of the
following line. -/
theorem claim_c10_newline_consumed :
    ∀ f pre tail suffix value : Str,
      (f = descStr ∨ f = kwStr) →
      noDollar value = true →
      (f ++ ':' :: tail).all (fun c => c != '\n') = true →
      findSub (f ++ [':'])
          (pre ++ (f ++ ':' :: (tail ++ '\n' :: suffix))) = some pre.length →
      updateFrontmatterField (pre ++ (f ++ ':' :: (tail ++ '\n' :: suffix))) f value
        = pre ++ (f ++ ':' :: ' ' :: '"' :: (value ++ '"' :: suffix)) := by
  intro f pre tail suffix value hf hv hall hfind
  have hfd : noDollar f = true := by
    rcases hf with h | h <;> subst h <;> decide
  exact updateFrontmatterField_mid pre f tail suffix value hall
    (noDollar_repl f value hfd hv) hfind

/-- Claim C10, witness: replacing the `keywords` field of a block whose
keywords line is followed by a tags line joins the rewritten line onto
`tags: x`. -/
theorem claim_c10_witness :
    updateFrontmatterField ("keywords: a, b\ntags: x").data kwStr ("c, d").data
      = ("keywords: \"c, d\"tags: x").data :=
  claim_c10_newline_consumed kwStr [] (" a, b").data ("tags: x").data ("c, d").data
    (Or.inr rfl) (by decide) (by decide) (by decide)

/-- Claim C6: the existence check is a plain substring test and the
replacement only reaches the end of one line.  First conjunct: the field
name occurring as a suffix of another field's name (`seo-description`)
makes the check succeed and the replacement rewrites from inside that
field's line rather than appending a `description` field.  Second
conjunct: the field name occurring inside another field's value makes
the replacement start mid-line there (and swallow that line's newline).
Third conjunct: a multi-line (folded) value is only replaced up to the
end of its first line, leaving the continuation lines behind — the block
is corrupted rather than the whole value replaced. -/
theorem claim_c6_substring_check :
    updateFrontmatterField ("seo-description: x").data descStr ("new").data
      = ("seo-description: \"new\"").data
    ∧ updateFrontmatterField ("title: see description: here\nauthor: y").data descStr ("new").data
      = ("title: see description: \"new\"author: y").data
    ∧ updateFrontmatterField ("description: >\n  a\n  b").data descStr ("new").data
      = ("description: \"new\"  a\n  b").data := by
  refine ⟨by decide, by decide, by decide⟩

/-- Claim C2: for a document in which no frontmatter block is matched,
patching synthesizes a block holding exactly the description and
keywords lines between two delimiter lines, followed by a blank line,
followed by the original text unchanged. -/
theorem claim_c2_synthesis :
    ∀ content d k : Str,
      frontmatterSplit content = none →
      updateFrontmatter content d k
        = ("---\ndescription: \"").data ++ d ++ ("\"\nkeywords: \"").data ++ k
          ++ ("\"\n---\n\n").data ++ content := by
  intro content d k h
  unfold updateFrontmatter
  rw [h]
  rfl

/-- Claim C2, witness: the spec's scenario input. -/
theorem claim_c2_witness :
    updateFrontmatter ("# Title\nBody text").data
        ("A short post about titles.").data ("title, blog").data
      = ("---\ndescription: \"A short post about titles.\"\nkeywords: \"title, blog\"\n---\n\n# Title\nBody text").data :=
  claim_c2_synthesis ("# Title\nBody text").data
    ("A short post about titles.").data ("title, blog").data (by decide)

/-- Claim C7, counterexample: the document whose closing delimiter line
is `----` (four dashes) has no line consisting solely of three dashes
after the first, yet the pattern matches (its closing `\n---` needs no
line end), so the block path is taken instead of the synthesis path the
claim predicts. -/
theorem claim_c7_counterexample :
    specExactBlockShape ("---\na\n----").data = false
    ∧ frontmatterSplit ("---\na\n----").data = some (("a").data, ("-").data)
    ∧ updateFrontmatter ("---\na\n----").data ("d").data ("k").data
      = ("---\na\ndescription: \"d\"\nkeywords: \"k\"\n----").data
    ∧ updateFrontmatter ("---\na\n----").data ("d").data ("k").data
      ≠ synthesizeFrontmatter ("---\na\n----").data ("d").data ("k").data := by
  refine ⟨by decide, by decide, by decide, by decide⟩

/-- Claim C7 (amended): a block is recognized exactly when the document
starts with the four characters dash-dash-dash-newline and the remainder
contains a newline immediately followed by three dashes; the opening
delimiter must be a whole line, but the closing delimiter is only a
newline followed by three dashes and need not be an entire line.  All
other documents take the synthesis path. -/
theorem claim_c7_block_recognition :
    ∀ content : Str,
      (frontmatterSplit content).isSome
        = (("---\n").data.isPrefixOf content
            && strContains (("\n---").data) (content.drop 4)) := by
  intro content
  unfold frontmatterSplit
  cases hp : ("---\n").data.isPrefixOf content with
  | false => simp [hp]
  | true =>
    rw [strContains_eq_findSub_isSome]
    cases hf : findSub (("\n---").data) (content.drop 4) with
    | none => simp [hp, hf]
    | some j => simp [hp, hf]

/-- Claim C4: every failure of the remote call — the transport throwing
(network error or non-2xx status, which make axios reject) or a response
body from which no `choices[0].message.content` string can be extracted
— is caught inside `callAIAPI`, which then returns the empty string; the
embedding is a total function, so no exception reaches the caller. -/
theorem claim_c4_errors_to_empty :
    ∀ (tr : ApiRequest → TransportOutcome) (s : PluginSettings) (content : Str) (ty : ReqType),
      ((∃ msg, tr (buildRequest s content ty) = TransportOutcome.failure msg)
        ∨ (∃ data, tr (buildRequest s content ty) = TransportOutcome.success data
            ∧ extractContentOpt data = none)) →
      callAIAPI tr s content ty = [] := by
  intro tr s content ty h
  unfold callAIAPI callAIAPITry
  rcases h with ⟨msg, hm⟩ | ⟨data, hd, he⟩
  · rw [hm]
  · rw [hd]
    dsimp only
    rw [he]

/-- Claim C4, witness: a throwing transport yields the empty string. -/
theorem claim_c4_witness :
    callAIAPI (fun _ => TransportOutcome.failure ("boom").data) DEFAULT_SETTINGS
      ("content").data ReqType.keywords = [] :=
  claim_c4_errors_to_empty _ _ _ _ (Or.inl ⟨("boom").data, rfl⟩)

/-- Claim C3: if either generation call produces the empty string — in
particular on any transport failure or unparseable body, by C4 — the
command leaves the editor text unchanged and never invokes
`editor.setValue` (the Boolean component records that invocation). -/
theorem claim_c3_no_mutation_on_empty :
    ∀ (tr : ApiRequest → TransportOutcome) (s : PluginSettings) (editorText : Str),
      callAIAPI tr s editorText ReqType.description = []
        ∨ callAIAPI tr s editorText ReqType.keywords = [] →
      generateDescription tr s editorText = (editorText, false) := by
  intro tr s t h
  unfold generateDescription
  dsimp only
  rcases h with h | h
  · rw [h]; simp
  · rw [h]; simp

/-- Claim C3, witness: with a transport that always throws, the document
is not mutated. -/
theorem claim_c3_witness :
    generateDescription (fun _ => TransportOutcome.failure ("network down").data)
      DEFAULT_SETTINGS ("# Post\nBody").data = (("# Post\nBody").data, false) :=
  claim_c3_no_mutation_on_empty _ _ _ (Or.inl rfl)

/-- Claim C8: the system instruction of a request is exactly the
per-type custom prompt when `useCustomPrompts` is set (description and
keywords have independent overrides), and otherwise the built-in
instruction selected by the configured language and the request type. -/
theorem claim_c8_system_instruction :
    ∀ (s : PluginSettings) (content : Str) (ty : ReqType),
      (buildRequest s content ty).messages.head?
        = some ⟨("system").data,
            if s.useCustomPrompts then
              (match ty with
               | ReqType.description => s.customDescriptionPrompt
               | ReqType.keywords => s.customKeywordsPrompt)
            else (DEFAULT_PROMPTS ty s.language).1⟩ := by
  intro s content ty
  rfl

/-- Claim C9: the request carries the configured model, the ordered
system/user message pair with the user turn the language-dependent
preamble followed by the whole document text, the configured max-token
bound and temperature, and the bearer-token `Authorization` header. -/
theorem claim_c9_request_payload :
    ∀ (s : PluginSettings) (content : Str) (ty : ReqType),
      (buildRequest s content ty).url = s.apiUrl
      ∧ (buildRequest s content ty).model = s.model
      ∧ (∃ sys : Str, (buildRequest s content ty).messages
          = [⟨("system").data, sys⟩,
             ⟨("user").data, (DEFAULT_PROMPTS ty s.language).2 ++ content⟩])
      ∧ (buildRequest s content ty).max_tokens = s.maxTokens
      ∧ (buildRequest s content ty).temperature = s.temperature
      ∧ (buildRequest s content ty).headers
          = [(("Authorization").data, ("Bearer ").data ++ s.apiKey),
             (("Content-Type").data, ("application/json").data)] := by
  intro s content ty
  exact ⟨rfl, rfl, ⟨_, rfl⟩, rfl, rfl, rfl⟩
